import Mathlib

/-!
Verification of the enterprise-cms-platform auth core against its
natural-language specification.

The TypeScript sources embedded here:
  * `lib/auth.ts` — JWT secrets, refresh-token store operations,
    permission checking, bearer-header extraction, resource modification
    policy;
  * `packages/shared/src/utils.ts` — the second, independently written
    `hasPermission`;
  * the `auth/login`, `auth/register`, `auth/refresh` route handlers.

JavaScript strings are embedded as Lean `String`, with character-wise
helper operations (`strStartsWith`, `strEndsWith`, `strDropRight`,
`strDrop`) mirroring `String.prototype.startsWith`, `endsWith`,
`slice(0, -n)` and `substring(n)`. The Prisma refresh-token table is a
`List RefreshTokenRec` keyed on the unique `token` column; `findUnique`
is `List.find?`, a clock instant is a `Nat`.
-/

/-- JS `s.startsWith(p)`: character-wise prefix test. -/
def strStartsWith (s p : String) : Bool := p.data.isPrefixOf s.data

/-- JS `s.endsWith(p)`: character-wise suffix test. -/
def strEndsWith (s p : String) : Bool := p.data.isSuffixOf s.data

/-- JS `s.slice(0, -n)`: drop the last `n` characters. -/
def strDropRight (s : String) (n : Nat) : String := ⟨s.data.take (s.data.length - n)⟩

/-- JS `s.substring(n)`: drop the first `n` characters. -/
def strDrop (s : String) (n : Nat) : String := ⟨s.data.drop n⟩

/-- The Prisma `UserRole` enum. -/
inductive UserRole where
  | admin
  | editor
  | author
  | viewer
deriving DecidableEq, Repr

/-- `lib/auth.ts` `getUserPermissions`: the role-to-grant table. -/
def getUserPermissions (role : UserRole) : List String :=
  match role with
  | .admin => ["*"]
  | .editor => ["content:*", "media:*", "comments:moderate"]
  | .author => ["content:create", "content:edit:own", "media:upload"]
  | .viewer => ["content:read", "comments:create"]

/-- `lib/auth.ts` `hasPermission`: `"*"` grants everything; a pattern
ending in `:*` matches when the permission starts with
`p.slice(0, -2)` (the pattern minus the trailing `:*`); otherwise
exact equality. -/
def hasPermission (userRole : UserRole) (permission : String) : Bool :=
  let permissions := getUserPermissions userRole
  if permissions.contains "*" then
    true
  else
    permissions.any fun p =>
      if strEndsWith p ":*" then
        strStartsWith permission (strDropRight p 2)
      else
        p == permission

/-- The permission check exactly as claim C1 words it: the role's set
contains `"*"`, or contains a pattern ending in `:*` whose prefix —
the pattern minus the trailing `*`, INCLUDING the colon — is a prefix
of the action, or contains a pattern exactly equal to the action. -/
def hasPermissionClaimC1 (userRole : UserRole) (action : String) : Bool :=
  let permissions := getUserPermissions userRole
  permissions.contains "*" ||
    (permissions.any fun p =>
      strEndsWith p ":*" && strStartsWith action (strDropRight p 1)) ||
    permissions.contains action

/-- `lib/auth.ts` `canModifyResource`: admins and editors can modify
anything; otherwise only the owner can. -/
def canModifyResource (userRole : UserRole) (userId resourceOwnerId : String) : Bool :=
  if userRole == UserRole.admin || userRole == UserRole.editor then
    true
  else
    userId == resourceOwnerId

namespace SharedUtils

/-- `packages/shared/src/utils.ts` `hasPermission`: the independently
written permission checker of the shared package, with its own inline
role-to-grant table. -/
def hasPermission (userRole : UserRole) (permission : String) : Bool :=
  let rolePermissions : UserRole → List String := fun r =>
    match r with
    | .admin => ["*"]
    | .editor => ["content:*", "media:*", "comments:moderate"]
    | .author => ["content:create", "content:edit:own", "media:upload"]
    | .viewer => ["content:read", "comments:create"]
  let permissions := rolePermissions userRole
  if permissions.contains "*" then
    true
  else
    permissions.any fun p =>
      if strEndsWith p ":*" then
        strStartsWith permission (strDropRight p 2)
      else
        p == permission

end SharedUtils

/-- The Prisma `User` record, restricted to the fields the auth flows
read. `password` is nullable: OAuth accounts have none. -/
structure UserRec where
  id : String
  email : String
  name : String
  password : Option String
  role : UserRole
deriving DecidableEq, Repr

/-- The Prisma `RefreshToken` record; `user` is the included relation.
`expiresAt` is an instant on an abstract `Nat` clock. -/
structure RefreshTokenRec where
  token : String
  userId : String
  expiresAt : Nat
  user : UserRec
deriving DecidableEq, Repr

/-- The refresh-token table, keyed on the unique `token` column. -/
abbrev TokenDb := List RefreshTokenRec

/-- `prisma.refreshToken.findUnique({ where: { token } })`. -/
def findUniqueToken (db : TokenDb) (t : String) : Option RefreshTokenRec :=
  db.find? fun r => r.token == t

/-- `lib/auth.ts` `verifyRefreshToken`: null when the record is absent
or `expiresAt < new Date()`; otherwise the associated user. -/
def verifyRefreshToken (db : TokenDb) (now : Nat) (t : String) : Option UserRec :=
  match findUniqueToken db t with
  | none => none
  | some r => if r.expiresAt < now then none else some r.user

/-- `prisma.refreshToken.delete({ where: { token } })`: removes the
record, or rejects when no record has that token. -/
def prismaDeleteToken (db : TokenDb) (t : String) : Except String TokenDb :=
  if db.any (fun r => r.token == t) then
    Except.ok (db.filter fun r => !(r.token == t))
  else
    Except.error "Record to delete does not exist."

/-- `lib/auth.ts` `revokeRefreshToken`: the delete with its rejection
swallowed by `.catch(() => {})`. -/
def revokeRefreshToken (db : TokenDb) (t : String) : TokenDb :=
  match prismaDeleteToken db t with
  | Except.ok db2 => db2
  | Except.error _ => db

/-- The JWT claims `generateAccessToken` signs. -/
structure JWTPayload where
  userId : String
  email : String
  role : UserRole
deriving DecidableEq, Repr

/-- The hard-coded fallback string in `lib/auth.ts`. -/
def DEFAULT_JWT_SECRET : String := "your-super-secret-jwt-key-change-in-production"

/-- `const JWT_SECRET = process.env.JWT_SECRET || "your-super-secret…"`:
the module-load-time initialisation; an unset or empty (falsy)
environment variable silently selects the hard-coded default. -/
def JWT_SECRET (env : Option String) : String :=
  match env with
  | none => DEFAULT_JWT_SECRET
  | some s => if s == "" then DEFAULT_JWT_SECRET else s

/-- A signed JWT, abstracted to its payload and the secret that signed
it (`jwt.sign(payload, secret)`). -/
structure SignedToken where
  payload : JWTPayload
  secret : String
deriving DecidableEq, Repr

/-- `lib/auth.ts` `generateAccessToken`. -/
def generateAccessToken (secret : String) (payload : JWTPayload) : SignedToken :=
  { payload := payload, secret := secret }

/-- `lib/auth.ts` `extractTokenFromHeader`: null when the header is
falsy or lacks the `"Bearer "` scheme; otherwise `substring(7)`. -/
def extractTokenFromHeader (authHeader : Option String) : Option String :=
  match authHeader with
  | none => none
  | some s =>
    if s == "" || !(strStartsWith s "Bearer ") then
      none
    else
      some (strDrop s 7)

/-- `lib/auth.ts` `authenticateRequest`: extract, reject a falsy token,
delegate to access-token verification (passed in as the crypto
oracle). -/
def authenticateRequest (verifyAccessToken : String → Option JWTPayload)
    (authHeader : Option String) : Option JWTPayload :=
  match extractTokenFromHeader authHeader with
  | none => none
  | some token =>
    if token == "" then none else verifyAccessToken token

/-- The authenticate behaviour exactly as claim C6 words it: null on a
missing header, a header without the exact case-sensitive `"Bearer "`
scheme, or an empty remainder; otherwise the verifier's result on the
verbatim remainder. -/
def authenticateClaimC6 (verifyAccessToken : String → Option JWTPayload)
    (authHeader : Option String) : Option JWTPayload :=
  match authHeader with
  | none => none
  | some s =>
    if strStartsWith s "Bearer " && !(strDrop s 7 == "") then
      verifyAccessToken (strDrop s 7)
    else
      none

/-- Outcome of the `auth/refresh` route body. -/
inductive RefreshOutcome where
  | failure (msg : String)
  | success (user : UserRec) (newRefreshToken : String)
deriving DecidableEq, Repr

/-- `auth/refresh/route.ts` POST, after body validation: verify the old
token; on failure the generic 401; on success revoke the old token,
then create the fresh one (`freshToken`/`freshExpiry` stand for the
nanoid and `now + 7d` of `generateRefreshToken`). -/
def refreshRoute (db : TokenDb) (now : Nat) (oldToken : String)
    (freshToken : String) (freshExpiry : Nat) : RefreshOutcome × TokenDb :=
  match verifyRefreshToken db now oldToken with
  | none => (RefreshOutcome.failure "Invalid or expired refresh token", db)
  | some user =>
    let db1 := revokeRefreshToken db oldToken
    let newRec : RefreshTokenRec :=
      { token := freshToken, userId := user.id, expiresAt := freshExpiry, user := user }
    (RefreshOutcome.success user freshToken, newRec :: db1)

/-- Outcome of the `auth/login` route body. -/
inductive LoginOutcome where
  | failure (status : Nat) (msg : String)
  | success (user : UserRec)
deriving DecidableEq, Repr

/-- `auth/login/route.ts` POST, after rate limiting and validation:
`if (!user || !user.password)` yields the generic 401 before the hash
comparison; otherwise `verifyPassword` decides. The second component
records whether `verifyPassword` was invoked. -/
def loginRoute (user? : Option UserRec) (verifyPassword : String → String → Bool)
    (password : String) : LoginOutcome × Bool :=
  match user? with
  | none => (LoginOutcome.failure 401 "Invalid credentials", false)
  | some u =>
    match u.password with
    | none => (LoginOutcome.failure 401 "Invalid credentials", false)
    | some hash =>
      if hash == "" then
        (LoginOutcome.failure 401 "Invalid credentials", false)
      else if verifyPassword password hash then
        (LoginOutcome.success u, true)
      else
        (LoginOutcome.failure 401 "Invalid credentials", true)

/-- The caller-controlled registration body: the fields `registerSchema`
parses plus whatever other JSON fields the caller sent (stripped by
validation, never read by the route). -/
structure RegisterBody where
  email : String
  password : String
  name : String
  extra : List (String × String)
deriving DecidableEq, Repr

/-- `auth/register/route.ts` POST, after rate limiting and validation:
409 (modelled as `none`) when the email exists; otherwise create the
user with `role: UserRole.author` fixed by the route. -/
def registerRoute (existingUser : Option UserRec) (body : RegisterBody)
    (hash : String → String) (freshId : String) : Option UserRec :=
  match existingUser with
  | some _ => none
  | none =>
    some { id := freshId, email := body.email, name := body.name,
           password := some (hash body.password), role := UserRole.author }

/-- A concrete user record for the evaluated instances below. -/
def cUser : UserRec :=
  { id := "u1", email := "u1@example.com", name := "U One",
    password := none, role := UserRole.author }

/-- A concrete refresh-token record expiring at instant 5. -/
def cTok : RefreshTokenRec :=
  { token := "tok", userId := "u1", expiresAt := 5, user := cUser }

/-- Dropping characters from the right of a list leaves a prefix of it. -/
lemma isPrefixOf_take (l : List Char) (n : Nat) : (l.take n).isPrefixOf l = true := by
  induction l generalizing n with
  | nil => cases n <;> rfl
  | cons a t ih => cases n with
    | zero => rfl
    | succ m => simp [List.take, List.isPrefixOf, ih]

/-- A string starts with itself minus its last `n` characters. -/
lemma strStartsWith_strDropRight_self (p : String) (n : Nat) :
    strStartsWith p (strDropRight p n) = true :=
  isPrefixOf_take p.data (p.data.length - n)

/-- C1, counterexample: `hasPermission` strips the whole `:*` from a
wildcard pattern (`p.slice(0, -2)` gives `"content"`), so the action
`"contentious"` is granted to editor, while the claim's prefix —
`"content:"`, the colon kept — rejects it. -/
theorem hasPermission_C1_counterexample :
    hasPermission UserRole.editor "contentious" = true ∧
    hasPermissionClaimC1 UserRole.editor "contentious" = false := by
  decide

/-- C1, amended: `has(R, a)` is true iff R's granted set contains `"*"`,
or contains a pattern ending in `:*` whose prefix — the pattern minus
the trailing `:*`, the colon stripped as well — is a prefix of `a`, or
contains a pattern exactly equal to `a`; and in particular admin is
granted everything and viewer is not granted `content:create`. -/
theorem hasPermission_C1_amended (R : UserRole) (a : String) :
    (hasPermission R a = true ↔
      "*" ∈ getUserPermissions R ∨
      (∃ p ∈ getUserPermissions R, strEndsWith p ":*" = true ∧
        strStartsWith a (strDropRight p 2) = true) ∨
      a ∈ getUserPermissions R) ∧
    hasPermission UserRole.admin a = true ∧
    hasPermission UserRole.viewer "content:create" = false := by
  refine ⟨?_, rfl, by decide⟩
  by_cases hc : ("*" : String) ∈ getUserPermissions R
  · have hc' : (getUserPermissions R).contains "*" = true := List.elem_iff.mpr hc
    simp [hasPermission, hc', hc]
  · have hc' : (getUserPermissions R).contains "*" = false := by
      rcases h : (getUserPermissions R).contains "*" with _ | _
      · rfl
      · exact absurd (List.elem_iff.mp h) hc
    simp only [hasPermission, hc', Bool.false_eq_true, if_false, List.any_eq_true]
    constructor
    · rintro ⟨p, hp, hmatch⟩
      by_cases hw : strEndsWith p ":*" = true
      · exact Or.inr (Or.inl ⟨p, hp, hw, by simpa [hw] using hmatch⟩)
      · refine Or.inr (Or.inr ?_)
        have hpa : p = a := by
          simp [hw] at hmatch
          exact hmatch
        exact hpa ▸ hp
    · rintro (hstar | ⟨p, hp, hw, hpre⟩ | hmem)
      · exact absurd hstar hc
      · exact ⟨p, hp, by simp [hw, hpre]⟩
      · refine ⟨a, hmem, ?_⟩
        by_cases hw : strEndsWith a ":*" = true
        · simp [hw, strStartsWith_strDropRight_self]
        · simp [hw]

/-- C9: `canModifyResource` is true unconditionally for admin and
editor, and otherwise exactly when the acting user owns the resource. -/
theorem canModifyResource_C9 (R : UserRole) (u o : String) :
    canModifyResource R u o = true ↔
      (R = UserRole.admin ∨ R = UserRole.editor ∨ u = o) := by
  cases R <;> simp [canModifyResource]

/-- C10: the auth library's `hasPermission` and the shared package's
`hasPermission` agree on every role and every action string. -/
theorem hasPermission_C10_equiv (R : UserRole) (a : String) :
    hasPermission R a = SharedUtils.hasPermission R a := by
  cases R <;> rfl

/-- After filtering out every record carrying token `t`, a lookup of
`t` misses. -/
lemma findUniqueToken_filter_out (db : TokenDb) (t : String) :
    findUniqueToken (db.filter fun r => !(r.token == t)) t = none := by
  rw [findUniqueToken, List.find?_eq_none]
  intro x hx
  have hpred := (List.mem_filter.mp hx).2
  simpa using hpred

/-- Revoking a token with no record leaves the table unchanged (the
Prisma rejection is swallowed). -/
lemma revoke_of_not_found (db : TokenDb) (t : String)
    (h : findUniqueToken db t = none) : revokeRefreshToken db t = db := by
  have hany : db.any (fun r => r.token == t) = false := by
    rw [List.any_eq_false]
    intro x hx
    have := List.find?_eq_none.mp h x hx
    simpa using this
  simp [revokeRefreshToken, prismaDeleteToken, hany]

/-- After `revokeRefreshToken`, the revoked token has no record. -/
lemma findUniqueToken_revoke (db : TokenDb) (t : String) :
    findUniqueToken (revokeRefreshToken db t) t = none := by
  by_cases h : db.any (fun r => r.token == t) = true
  · have : revokeRefreshToken db t = db.filter fun r => !(r.token == t) := by
      simp [revokeRefreshToken, prismaDeleteToken, h]
    rw [this]
    exact findUniqueToken_filter_out db t
  · have h' : db.any (fun r => r.token == t) = false := by simpa using h
    have hnone : findUniqueToken db t = none := by
      rw [findUniqueToken, List.find?_eq_none]
      intro x hx
      simpa using List.any_eq_false.mp h' x hx
    rw [revoke_of_not_found db t hnone]
    exact hnone

/-- The refresh route on a failed verification returns the generic 401
and leaves the table unchanged. -/
lemma refreshRoute_fail (db : TokenDb) (now : Nat) (t f : String) (e : Nat)
    (h : verifyRefreshToken db now t = none) :
    refreshRoute db now t f e
      = (RefreshOutcome.failure "Invalid or expired refresh token", db) := by
  simp [refreshRoute, h]

/-- A lookup skips a head record holding a different token. -/
lemma findUniqueToken_cons_ne (r : RefreshTokenRec) (db : TokenDb) (t : String)
    (h : r.token ≠ t) : findUniqueToken (r :: db) t = findUniqueToken db t := by
  rw [findUniqueToken, findUniqueToken, List.find?_cons_of_neg]
  simpa using h

/-- C2, counterexample: a refresh token whose `expiresAt` equals the
current instant is accepted by `verifyRefreshToken` (the code expires
only on `expiresAt < now`), while the claim calls it expired. -/
theorem verifyRefreshToken_C2_counterexample :
    findUniqueToken [cTok] "tok" = some cTok ∧
    cTok.expiresAt ≤ 5 ∧
    verifyRefreshToken [cTok] 5 "tok" = some cUser := by
  decide

/-- C2, amended: `verifyRefreshToken` returns null iff the record is
absent or `expiresAt` is strictly earlier than now — a token expiring
exactly now is still valid — and on a valid hit returns the associated
user record. -/
theorem verifyRefreshToken_C2_amended (db : TokenDb) (now : Nat) (t : String) :
    (verifyRefreshToken db now t = none ↔
      findUniqueToken db t = none ∨
      ∃ r, findUniqueToken db t = some r ∧ r.expiresAt < now) ∧
    (∀ r, findUniqueToken db t = some r → now ≤ r.expiresAt →
      verifyRefreshToken db now t = some r.user) := by
  constructor
  · cases h : findUniqueToken db t with
    | none => simp [verifyRefreshToken, h]
    | some r =>
      by_cases hlt : r.expiresAt < now
      · simp [verifyRefreshToken, h, hlt]
      · simp [verifyRefreshToken, h, hlt]
  · intro r hr hle
    have hnlt : ¬ r.expiresAt < now := Nat.not_lt.mpr hle
    simp [verifyRefreshToken, hr, hnlt]

/-- C2, witness: the amended statement evaluated on the concrete store:
the token expiring exactly at instant 5 is verified at instant 5. -/
theorem verifyRefreshToken_C2_witness :
    verifyRefreshToken [cTok] 5 "tok" = some cUser :=
  (verifyRefreshToken_C2_amended [cTok] 5 "tok").2 cTok rfl (by decide)

/-- C3: with the environment variable unset, module initialisation
silently selects the hard-coded default secret and the codec signs
access tokens with it — the startup failure the claim requires never
happens. -/
theorem jwtSecret_C3_bug :
    JWT_SECRET none = DEFAULT_JWT_SECRET ∧
    (generateAccessToken (JWT_SECRET none)
        { userId := "u1", email := "u1@example.com", role := UserRole.viewer }).secret
      = DEFAULT_JWT_SECRET :=
  ⟨rfl, rfl⟩

/-- C4: a failed verification of the old token yields the generic
"Invalid or expired refresh token" error; a successful refresh deletes
the old token's record (for a fresh replacement token value), so a
second refresh of the same token fails with the same generic error —
the old token is single-use. -/
theorem refreshRoute_C4 (db : TokenDb) (now now2 : Nat)
    (oldToken freshToken freshToken2 : String) (freshExpiry freshExpiry2 : Nat)
    (hfresh : freshToken ≠ oldToken) :
    (verifyRefreshToken db now oldToken = none →
      (refreshRoute db now oldToken freshToken freshExpiry).1
        = RefreshOutcome.failure "Invalid or expired refresh token") ∧
    (∀ u, verifyRefreshToken db now oldToken = some u →
      findUniqueToken (refreshRoute db now oldToken freshToken freshExpiry).2 oldToken
        = none ∧
      (refreshRoute (refreshRoute db now oldToken freshToken freshExpiry).2
          now2 oldToken freshToken2 freshExpiry2).1
        = RefreshOutcome.failure "Invalid or expired refresh token") := by
  refine ⟨fun hv => by simp [refreshRoute, hv], fun u hu => ?_⟩
  have hdb2 : (refreshRoute db now oldToken freshToken freshExpiry).2
      = ({ token := freshToken, userId := u.id, expiresAt := freshExpiry, user := u }
          : RefreshTokenRec) :: revokeRefreshToken db oldToken := by
    simp [refreshRoute, hu]
  have hfind : findUniqueToken (refreshRoute db now oldToken freshToken freshExpiry).2
      oldToken = none := by
    rw [hdb2, findUniqueToken_cons_ne _ _ _ hfresh]
    exact findUniqueToken_revoke db oldToken
  refine ⟨hfind, ?_⟩
  have hver2 : verifyRefreshToken (refreshRoute db now oldToken freshToken freshExpiry).2
      now2 oldToken = none := by
    rw [verifyRefreshToken, hfind]
  rw [refreshRoute_fail _ _ _ _ _ hver2]

/-- C4, witness: on the concrete store, refreshing `"tok"` at instant 3
succeeds, after which its record is gone and a second refresh fails. -/
theorem refreshRoute_C4_witness :
    findUniqueToken (refreshRoute [cTok] 3 "tok" "fresh" 100).2 "tok" = none ∧
    (refreshRoute (refreshRoute [cTok] 3 "tok" "fresh" 100).2 3 "tok" "fresh2" 200).1
      = RefreshOutcome.failure "Invalid or expired refresh token" :=
  (refreshRoute_C4 [cTok] 3 3 "tok" "fresh" "fresh2" 100 200 (by decide)).2 cUser rfl

/-- C8: `revokeRefreshToken` deletes the token's record, is idempotent,
and swallows the failed deletion of an unknown token (the call returns
normally with the table unchanged). -/
theorem revokeRefreshToken_C8 (db : TokenDb) (t : String) :
    findUniqueToken (revokeRefreshToken db t) t = none ∧
    revokeRefreshToken (revokeRefreshToken db t) t = revokeRefreshToken db t ∧
    (findUniqueToken db t = none → revokeRefreshToken db t = db) :=
  ⟨findUniqueToken_revoke db t,
    revoke_of_not_found _ _ (findUniqueToken_revoke db t),
    fun h => revoke_of_not_found db t h⟩

/-- C8, witness: revoking an unknown token on the empty table completes
normally and changes nothing. -/
theorem revokeRefreshToken_C8_witness :
    revokeRefreshToken ([] : TokenDb) "x" = [] :=
  (revokeRefreshToken_C8 [] "x").2.2 rfl

/-- C5: with a null password hash, login fails with the identical
generic "Invalid credentials" 401 produced for an unknown email, and
the hash comparison is never invoked (the `false` component), whatever
the supplied password and whatever the comparator would answer. -/
theorem loginRoute_C5 (user : UserRec) (verifyPassword : String → String → Bool)
    (password : String) (h : user.password = none) :
    loginRoute (some user) verifyPassword password
        = (LoginOutcome.failure 401 "Invalid credentials", false) ∧
    loginRoute none verifyPassword password
        = (LoginOutcome.failure 401 "Invalid credentials", false) :=
  ⟨by simp [loginRoute, h], rfl⟩

/-- C5, witness: the concrete password-less user is rejected even by an
always-accepting comparator, identically to an unknown email. -/
theorem loginRoute_C5_witness :
    loginRoute (some cUser) (fun _ _ => true) "pw"
      = (LoginOutcome.failure 401 "Invalid credentials", false) :=
  (loginRoute_C5 cUser (fun _ _ => true) "pw" rfl).1

/-- C6: `authenticateRequest` behaves exactly as the claim words it —
null for a missing header, a non-`"Bearer "` scheme, or an empty
remainder, and otherwise the verifier's answer on the verbatim
remainder; in particular `"Bearer   spacey"` verifies `"  spacey"`. -/
theorem authenticateRequest_C6 (verifyAccessToken : String → Option JWTPayload)
    (authHeader : Option String) :
    authenticateRequest verifyAccessToken authHeader
        = authenticateClaimC6 verifyAccessToken authHeader ∧
    authenticateRequest verifyAccessToken (some "Bearer   spacey")
        = verifyAccessToken "  spacey" := by
  refine ⟨?_, rfl⟩
  cases authHeader with
  | none => rfl
  | some s =>
    by_cases he : s = ""
    · subst he
      rfl
    · have he' : (s == "") = false := by simpa using he
      by_cases hb : strStartsWith s "Bearer " = true
      · by_cases ht : strDrop s 7 = ""
        · simp [authenticateRequest, extractTokenFromHeader, authenticateClaimC6,
            he', hb, ht]
        · have ht' : (strDrop s 7 == "") = false := by simpa using ht
          simp [authenticateRequest, extractTokenFromHeader, authenticateClaimC6,
            he', hb, ht']
      · have hb' : strStartsWith s "Bearer " = false := by simpa using hb
        simp [authenticateRequest, extractTokenFromHeader, authenticateClaimC6,
          he', hb']

/-- C7: whatever the caller sends — including extra JSON fields such as
a role — a user created by the register route carries the fixed role
`author`. -/
theorem registerRoute_C7 (existingUser : Option UserRec) (body : RegisterBody)
    (hash : String → String) (freshId : String) (u : UserRec)
    (h : registerRoute existingUser body hash freshId = some u) :
    u.role = UserRole.author := by
  cases existingUser with
  | some _ => simp [registerRoute] at h
  | none =>
    simp [registerRoute] at h
    rw [← h]

/-- C7, witness: a registration whose body smuggles `role: admin` in its
extra fields still creates an `author`. -/
theorem registerRoute_C7_witness :
    ({ id := "id1", email := "a@b.c", name := "A", password := some "H",
       role := UserRole.author } : UserRec).role = UserRole.author :=
  registerRoute_C7 none ⟨"a@b.c", "pw", "A", [("role", "admin")]⟩ (fun _ => "H") "id1"
    _ rfl
